import Mathlib

/-!
Shallow embedding of the chunk-streaming sandbox (`src/main.js`) and proofs of
its specified properties.

Modelling conventions:
* JS numbers that hold world positions, sizes and dimensions are modelled as `ℚ`
  (exact arithmetic standing in for floats); chunk coordinates are `ℤ`.
* `Math.random()` is modelled as an explicit stream `ℕ → ℚ` of draws together
  with a cursor index; each call to the generator consumes draws in source order.
* JS `Map` objects (`chunks`, `playerStructures`) are association lists in
  insertion order; `Map.set` replaces the first matching key in place or appends.
* The `THREE.Scene` is modelled only as the collections the core logic adds and
  removes: chunk groups (keyed by their chunk id, which is how `updateChunks`
  identifies them) and vehicle mesh references.  Camera, lights and the player
  capsule are presentation glue outside the modelled core.
* Euler angles are stored in units of π (so `Math.PI / 2` is the exact value `1/2`).
* `Date.now()`-derived values (`saveStructure`'s fresh id, the hover offset
  `Math.sin(Date.now()*0.001)*delta`) are supplied as explicit parameters.
-/

/-- A 3-component vector, as `THREE.Vector3` / `THREE.Euler` values. -/
structure Vec3 where
  x : ℚ
  y : ℚ
  z : ℚ
  deriving DecidableEq

/-- Geometries allocated by the source: boxes (terrain, buildings, plane body and
wing) and cylinders (boat hull).  Dimensions are the constructor arguments. -/
inductive Geometry where
  | box (w h d : ℚ)
  | cylinder (radiusTop radiusBottom height : ℚ) (segments : ℕ)
  deriving DecidableEq

/-- Vertical extent of a geometry (the `y`-size argument of its constructor). -/
def heightOf : Geometry → ℚ
  | .box _ h _ => h
  | .cylinder _ _ h _ => h

/-- `MeshStandardMaterial` parameters used by the source. -/
structure Material where
  color : ℕ
  flatShading : Bool
  deriving DecidableEq

/-- One procedurally generated chunk primitive (a terrain block or a building):
a mesh whose rotation is never set and which has no children. -/
structure Prim where
  geometry : Geometry
  material : Material
  position : Vec3
  deriving DecidableEq

/-- A chunk's content: the children of its `THREE.Group`, in creation order. -/
abbrev Chunk := List Prim

/-- A vehicle mesh: geometry, material, position, rotation (in units of π) and
child meshes (the plane's wing). -/
inductive MeshData where
  | mk (geometry : Geometry) (material : Material) (position : Vec3)
       (rotation : Vec3) (children : List MeshData)

/-- Geometry of a mesh. -/
def MeshData.geometry : MeshData → Geometry
  | .mk g _ _ _ _ => g

/-- Material of a mesh. -/
def MeshData.material : MeshData → Material
  | .mk _ m _ _ _ => m

/-- Position of a mesh. -/
def MeshData.position : MeshData → Vec3
  | .mk _ _ p _ _ => p

/-- Rotation of a mesh, in units of π. -/
def MeshData.rotation : MeshData → Vec3
  | .mk _ _ _ r _ => r

/-- A recorded player structure: the independent copies (`clone()`) of the
source mesh's geometry, material, position and rotation made by `saveStructure`. -/
structure Structure where
  geometry : Geometry
  material : Material
  position : Vec3
  rotation : Vec3

/-- Currently held movement keys (`keys["w"]` …), as supplied by the input layer. -/
structure KeyState where
  w : Bool
  s : Bool
  a : Bool
  d : Bool

/-- No movement key held. -/
def noKeys : KeyState := ⟨false, false, false, false⟩

/-- The `player` global: spawn fields `x`, `y`, `z` (set once at line 5 and read
by `buildVehicle`) and the visual mesh's position (mutated by `updatePlayer`). -/
structure PlayerState where
  x : ℚ
  y : ℚ
  z : ℚ
  meshPos : Vec3

/-- Configuration fixed at startup: `chunkSize`, `loadedRadius` and the
per-chunk generation counts (the literal loop bounds in `createChunk`). -/
structure Config where
  chunkSize : ℚ
  loadedRadius : ℤ
  terrainCount : ℕ
  buildingCount : ℕ

/-- The configuration of `src/main.js`: `chunkSize = 50`, `loadedRadius = 2`,
50 terrain blocks and 3 buildings per chunk. -/
def mainConfig : Config := ⟨50, 2, 50, 3⟩

/-- A chunk registry key, the character sequence of the JS string `"cx_cz"`. -/
abbrev ChunkId := List Char

/-- The scene, restricted to what the modelled core adds and removes:
chunk groups keyed by chunk id, and references into the vehicle mesh store. -/
structure Scene where
  chunkGroups : List (ChunkId × Chunk)
  vehicleRefs : List ℕ

/-- The mutable globals of `src/main.js` that the core logic touches. -/
structure WorldState where
  player : PlayerState
  chunks : List (ChunkId × Chunk)
  playerStructures : List (ℕ × Structure)
  vehicles : List ℕ
  meshes : List MeshData
  scene : Scene
  rng : ℕ → ℚ
  rngIdx : ℕ

/-- The random stream that always returns 0 (a legal `Math.random` output). -/
def zeroRng : ℕ → ℚ := fun _ => 0

/-- The random stream that always returns 1/2 (a legal `Math.random` output). -/
def halfRng : ℕ → ℚ := fun _ => 1/2

/-- The initial globals of `src/main.js`: player at (0, 2, 0), all registries
empty (the random stream is arbitrary; `zeroRng` is used). -/
def initState : WorldState :=
  ⟨⟨0, 2, 0, ⟨0, 2, 0⟩⟩, [], [], [], [], ⟨[], []⟩, zeroRng, 0⟩

/-! ### Decimal rendering and parsing of chunk ids

`chunkID` builds the key with a template literal; the unload pass recovers the
coordinates with `id.split("_").map(Number)`.  Rendering follows JS integer
`toString`; parsing models the fragment of JS `Number` coercion reachable from
such keys: an optional minus sign followed by decimal digits (the empty string,
which JS coerces to 0, is also covered); any other shape yields `none`,
standing for `NaN`. -/

/-- Character of a single decimal digit. -/
def digitChar (d : ℕ) : Char := Char.ofNat (48 + d)

/-- Numeric value of a decimal digit character. -/
def digitVal (c : Char) : ℕ := c.toNat - 48

/-- Whether a character is a decimal digit. -/
def isDigitCh (c : Char) : Bool := decide (48 ≤ c.toNat) && decide (c.toNat ≤ 57)

/-- Decimal digits of a natural number, most significant first. -/
def renderNat (n : ℕ) : List Char :=
  if _h : n < 10 then [digitChar n]
  else renderNat (n / 10) ++ [digitChar (n % 10)]
decreasing_by exact Nat.div_lt_self (by omega) (by omega)

/-- Decimal rendering of an integer, as the JS template literal renders it. -/
def renderInt (n : ℤ) : List Char :=
  if n < 0 then '-' :: renderNat (-n).toNat else renderNat n.toNat

/-- One step of decimal accumulation. -/
def natValStep (a : ℕ) (c : Char) : ℕ := 10 * a + digitVal c

/-- Numeric value of a digit string. -/
def natVal (l : List Char) : ℕ := l.foldl natValStep 0

/-- The decimal-integer fragment of JS `Number` coercion: `""` coerces to 0, an
optional `-` sign followed by at least one digit parses as usual, and anything
else is `none` (standing for `NaN`).  Other JS numeric forms (fractions, hex,
exponents, whitespace) never arise from keys built by `chunkID`. -/
def parseIntChars : List Char → Option ℤ
  | [] => some 0
  | c :: rest =>
    if c = '-' then
      if !rest.isEmpty && rest.all isDigitCh then some (-(natVal rest : ℤ)) else none
    else
      if isDigitCh c && rest.all isDigitCh then some ((natVal (c :: rest) : ℤ)) else none

/-- JS `String.prototype.split` on the single-character separator `"_"`:
every occurrence splits, empty pieces are kept, and the result is nonempty. -/
def splitOnUnderscore : List Char → List (List Char)
  | [] => [[]]
  | c :: rest =>
    if c = '_' then [] :: splitOnUnderscore rest
    else
      match splitOnUnderscore rest with
      | [] => [[c]]
      | p :: ps => (c :: p) :: ps

/-- The chunk id string for coordinates `(a, b)`: the template literal
`"a_b"` of lines 98 and 106. -/
def chunkIDChars (a b : ℤ) : ChunkId := renderInt a ++ '_' :: renderInt b

/-- The parse rule of the unload pass (line 113): split on the separator and
coerce both pieces to numbers; `none` when either piece fails to parse or the
shape is not two pieces. -/
def parseChunkIDChars (id : ChunkId) : Option (ℤ × ℤ) :=
  match (splitOnUnderscore id).map parseIntChars with
  | [some a, some b] => some (a, b)
  | _ => none

/-- The coordinate mapper: world position to chunk coordinate by floor division. -/
def chunkCoordinateOf (x z s : ℚ) : ℤ × ℤ := (⌊x / s⌋, ⌊z / s⌋)

/-- `chunkID(x, z)` of line 98, parametrised by the configured chunk size. -/
def chunkID (x z s : ℚ) : ChunkId :=
  chunkIDChars (chunkCoordinateOf x z s).1 (chunkCoordinateOf x z s).2

/-! ### Association-list model of JS `Map` -/

/-- JS `Map.prototype.get`: value of the first entry with the given key. -/
def mapGet {α β : Type} [DecidableEq α] : List (α × β) → α → Option β
  | [], _ => none
  | p :: m, k => if p.1 = k then some p.2 else mapGet m k

/-- JS `Map.prototype.has`. -/
def mapHas {α β : Type} [DecidableEq α] (m : List (α × β)) (k : α) : Bool :=
  (mapGet m k).isSome

/-- JS `Map.prototype.set`: replace the entry with the given key in place, or
append a new entry at the end of the insertion order. -/
def mapSet {α β : Type} [DecidableEq α] : List (α × β) → α → β → List (α × β)
  | [], k, v => [(k, v)]
  | p :: m, k, v => if p.1 = k then (k, v) :: m else p :: mapSet m k v

/-- Keys of a registry, in insertion order. -/
def keysOf (st : WorldState) : List ChunkId := st.chunks.map Prod.fst

/-! ### Chunk generation (`createChunk`, lines 119–150) -/

/-- The terrain-block loop (lines 122–131): `n` blocks, each consuming three
random draws in source order (x offset, z offset, height).  Returns the blocks
in creation order together with the advanced random cursor. -/
def genBlocks (cfg : Config) (cx cz : ℤ) (rng : ℕ → ℚ) : ℕ → ℕ → List Prim × ℕ
  | k, 0 => ([], k)
  | k, n + 1 =>
    let x := (rng k - 1/2) * cfg.chunkSize + cx * cfg.chunkSize
    let z := (rng (k + 1) - 1/2) * cfg.chunkSize + cz * cfg.chunkSize
    let y := rng (k + 2) * 2
    let block : Prim := ⟨.box 1 y 1, ⟨0x333333, false⟩, ⟨x, y / 2, z⟩⟩
    let r := genBlocks cfg cx cz rng (k + 3) n
    (block :: r.1, r.2)

/-- The building loop (lines 133–146): `n` buildings, each consuming five
random draws in source order (width, height, depth, x offset, z offset). -/
def genBuildings (cfg : Config) (cx cz : ℤ) (rng : ℕ → ℚ) : ℕ → ℕ → List Prim × ℕ
  | k, 0 => ([], k)
  | k, n + 1 =>
    let w := rng k * 3 + 1
    let h := rng (k + 1) * 5 + 3
    let d := rng (k + 2) * 3 + 1
    let px := cx * cfg.chunkSize + (rng (k + 3) - 1/2) * cfg.chunkSize
    let pz := cz * cfg.chunkSize + (rng (k + 4) - 1/2) * cfg.chunkSize
    let building : Prim := ⟨.box w h d, ⟨0x555555, true⟩, ⟨px, h / 2, pz⟩⟩
    let r := genBuildings cfg cx cz rng (k + 5) n
    (building :: r.1, r.2)

/-- The full primitive set of a generated chunk group together with the
advanced random cursor: terrain blocks then buildings, in creation order. -/
def genGroup (cfg : Config) (cx cz : ℤ) (rng : ℕ → ℚ) (k : ℕ) : List Prim × ℕ :=
  let t := genBlocks cfg cx cz rng k cfg.terrainCount
  let b := genBuildings cfg cx cz rng t.2 cfg.buildingCount
  (t.1 ++ b.1, b.2)

/-- `createChunk(cx, cz, id)` (lines 119–150): generate the group, add it to the
scene and register it under `id` in the chunk registry. -/
def createChunk (cfg : Config) (cx cz : ℤ) (id : ChunkId) (st : WorldState) : WorldState :=
  let g := genGroup cfg cx cz st.rng st.rngIdx
  { st with
    scene := { st.scene with chunkGroups := st.scene.chunkGroups ++ [(id, g.1)] },
    chunks := mapSet st.chunks id g.1,
    rngIdx := g.2 }

/-! ### Chunk lifecycle (`updateChunks`, `unloadChunk`, lines 100–158) -/

/-- The integer values taken by a JS `for (let i = lo; i <= hi; i++)` loop. -/
def intRange (lo hi : ℤ) : List ℤ :=
  (List.range (hi - lo + 1).toNat).map (fun i : ℕ => lo + (i : ℤ))

/-- The coordinates visited by the nested load loops (lines 104–109):
`dx` outer, `dz` inner, both from `-R` to `R`, shifted to `(cx+dx, cz+dz)`. -/
def windowList (cx cz R : ℤ) : List (ℤ × ℤ) :=
  ((intRange (-R) R).map
    (fun dx => (intRange (-R) R).map (fun dz => (cx + dx, cz + dz)))).flatten

/-- Comparison `Math.abs(v - c) > R` where `v` may be `NaN` (`none`):
any comparison against `NaN` is false. -/
def absGtOpt (o : Option ℤ) (c R : ℤ) : Bool :=
  match o with
  | some v => decide (R < |v - c|)
  | none => false

/-- The unload condition of lines 113–114: split the key on `"_"`, coerce the
first two pieces to numbers (a missing piece is `undefined`, which coerces to
`NaN`), and test `Math.abs(x-cx) > R || Math.abs(z-cz) > R`. -/
def shouldUnload (cx cz R : ℤ) (id : ChunkId) : Bool :=
  let parts := (splitOnUnderscore id).map parseIntChars
  absGtOpt (parts.getD 0 none) cx R || absGtOpt (parts.getD 1 none) cz R

/-- `unloadChunk(id)` (lines 153–158): if the id is registered, remove its group
from the scene and delete the registry entry; otherwise do nothing. -/
def unloadChunk (id : ChunkId) (st : WorldState) : WorldState :=
  if mapHas st.chunks id then
    { st with
      scene := { st.scene with
        chunkGroups := st.scene.chunkGroups.filter (fun p => !decide (p.1 = id)) },
      chunks := st.chunks.filter (fun p => !decide (p.1 = id)) }
  else st

/-- The load loops of lines 104–109 over a list of window coordinates: create
every chunk whose id is not yet registered.  The second component records the
ids passed to `createChunk`, the load set of the spec's `tick` contract. -/
def loadPass (cfg : Config) : WorldState → List (ℤ × ℤ) → WorldState × List ChunkId
  | st, [] => (st, [])
  | st, c :: cs =>
    let id := chunkIDChars c.1 c.2
    if mapHas st.chunks id then loadPass cfg st cs
    else
      let r := loadPass cfg (createChunk cfg c.1 c.2 id st) cs
      (r.1, id :: r.2)

/-- Player chunk x-coordinate (line 101). -/
def pcx (cfg : Config) (st : WorldState) : ℤ := ⌊st.player.meshPos.x / cfg.chunkSize⌋

/-- Player chunk z-coordinate (line 102). -/
def pcz (cfg : Config) (st : WorldState) : ℤ := ⌊st.player.meshPos.z / cfg.chunkSize⌋

/-- `updateChunks()` (lines 100–116), instrumented with the load and unload id
sets of the spec's `tick` contract: load every in-window chunk that is missing,
then iterate the registry (the `forEach`, whose delete-while-iterating is
equivalent to collecting the failing keys first) unloading every key whose
parsed coordinates are farther than `loadedRadius` from the player chunk. -/
def updateChunksT (cfg : Config) (st : WorldState) : WorldState × List ChunkId × List ChunkId :=
  let cx := pcx cfg st
  let cz := pcz cfg st
  let r := loadPass cfg st (windowList cx cz cfg.loadedRadius)
  let ids := (r.1.chunks.filter (fun p => shouldUnload cx cz cfg.loadedRadius p.1)).map Prod.fst
  (ids.foldl (fun s i => unloadChunk i s) r.1, r.2, ids)

/-- `updateChunks()` as the source exposes it: just the state change. -/
def updateChunks (cfg : Config) (st : WorldState) : WorldState :=
  (updateChunksT cfg st).1

/-- The window coordinates a tick visits, in loop order. -/
def tickWindow (cfg : Config) (st : WorldState) : List (ℤ × ℤ) :=
  windowList (pcx cfg st) (pcz cfg st) cfg.loadedRadius

/-- The state after a tick's load pass, before its unload pass. -/
def tickMid (cfg : Config) (st : WorldState) : WorldState :=
  (loadPass cfg st (tickWindow cfg st)).1

/-- The ids a tick passes to `createChunk` (the spec's load set). -/
def tickLoaded (cfg : Config) (st : WorldState) : List ChunkId :=
  (loadPass cfg st (tickWindow cfg st)).2

/-- The ids a tick passes to `unloadChunk` (the spec's unload set). -/
def tickUnloadIds (cfg : Config) (st : WorldState) : List ChunkId :=
  ((tickMid cfg st).chunks.filter
    (fun p => shouldUnload (pcx cfg st) (pcz cfg st) cfg.loadedRadius p.1)).map Prod.fst

/-! ### Generation failure (spec §4.3 / §7a)

The source generator is total; the spec's failure mode is the host runtime
throwing during primitive allocation (resource exhaustion).  `loadPassF` is the
same load loop with an explicit failure oracle: `fails c = true` means
generation for coordinate `c` throws.  A throw happens before `scene.add` and
`chunks.set` run, so the state is unchanged for that coordinate, and since
`updateChunks` contains no `try`/`catch` the exception propagates: the rest of
the load loop and the whole unload pass are skipped (`true` marks a throw). -/

/-- The load loop with a generation-failure oracle and JS exception propagation. -/
def loadPassF (cfg : Config) (fails : ℤ × ℤ → Bool) :
    WorldState → List (ℤ × ℤ) → WorldState × Bool
  | st, [] => (st, false)
  | st, c :: cs =>
    let id := chunkIDChars c.1 c.2
    if mapHas st.chunks id then loadPassF cfg fails st cs
    else if fails c then (st, true)
    else loadPassF cfg fails (createChunk cfg c.1 c.2 id st) cs

/-- `updateChunks()` under the failure oracle: on a throw the partially updated
state is returned with the `true` flag and the unload pass is skipped. -/
def updateChunksF (cfg : Config) (fails : ℤ × ℤ → Bool) (st : WorldState) :
    WorldState × Bool :=
  let cx := pcx cfg st
  let cz := pcz cfg st
  let r := loadPassF cfg fails st (windowList cx cz cfg.loadedRadius)
  if r.2 then (r.1, true)
  else
    let ids := (r.1.chunks.filter (fun p => shouldUnload cx cz cfg.loadedRadius p.1)).map Prod.fst
    (ids.foldl (fun s i => unloadChunk i s) r.1, false)

/-! ### Vehicles and structures (lines 62–95) -/

/-- The plane mesh of lines 67–74: yellow box body with a wing child at the
body's origin, positioned at `(player.x+2, player.y+1, player.z)`. -/
def planeMesh (p : PlayerState) : MeshData :=
  .mk (.box 2 (2/5) 4) ⟨0xffff00, false⟩ ⟨p.x + 2, p.y + 1, p.z⟩ ⟨0, 0, 0⟩
    [.mk (.box 4 (1/10) 1) ⟨0xffff00, false⟩ ⟨0, 0, 0⟩ ⟨0, 0, 0⟩ []]

/-- The boat mesh of lines 76–81: blue cylinder rotated `π/2` about z,
positioned at `(player.x+2, 0.25, player.z)`. -/
def boatMesh (p : PlayerState) : MeshData :=
  .mk (.cylinder 1 1 (1/2) 8) ⟨0x0000ff, false⟩ ⟨p.x + 2, 1/4, p.z⟩ ⟨0, 0, 1/2⟩ []

/-- The `switch (type)` of lines 66–82: only `"plane"` and `"boat"` produce a
mesh; any other type leaves `mesh` undefined. -/
def buildMesh? (type : String) (p : PlayerState) : Option MeshData :=
  if type = "plane" then some (planeMesh p)
  else if type = "boat" then some (boatMesh p)
  else none

/-- The snapshot `saveStructure` records: clones of the mesh's geometry,
material, position and rotation (children are not recorded). -/
def structureOf (m : MeshData) : Structure :=
  ⟨m.geometry, m.material, m.position, m.rotation⟩

/-- `saveStructure(mesh)` (lines 87–95).  The JS id `Date.now()+"_"+Math.random()`
is an externally supplied fresh value, passed here as the parameter `sid`. -/
def saveStructure (sid : ℕ) (m : MeshData) (st : WorldState) : WorldState :=
  { st with playerStructures := mapSet st.playerStructures sid (structureOf m) }

/-- `scene.add(mesh); vehicles.push(mesh)` of line 83: store the new mesh and
record its reference in the scene and the vehicles list. -/
def addVehicleMesh (m : MeshData) (st : WorldState) : WorldState :=
  { st with
    meshes := st.meshes ++ [m],
    scene := { st.scene with vehicleRefs := st.scene.vehicleRefs ++ [st.meshes.length] },
    vehicles := st.vehicles ++ [st.meshes.length] }

/-- `buildVehicle(type)` (lines 64–84): build the mesh for the type, and if one
was produced, add it to the scene and vehicles list and record its snapshot. -/
def buildVehicle (type : String) (sid : ℕ) (st : WorldState) : WorldState :=
  match buildMesh? type st.player with
  | none => st
  | some m => saveStructure sid m (addVehicleMesh m st)

/-! ### Movement and per-frame animation (lines 161–192) -/

/-- `updatePlayer(delta)` (lines 161–167): translate the player's visual mesh by
`10 * delta` along each held direction.  The `player.x/y/z` fields are not read
or written here. -/
def updatePlayer (k : KeyState) (delta : ℚ) (st : WorldState) : WorldState :=
  let speed := 10 * delta
  let p0 := st.player.meshPos
  let p1 := if k.w then { p0 with z := p0.z - speed } else p0
  let p2 := if k.s then { p1 with z := p1.z + speed } else p1
  let p3 := if k.a then { p2 with x := p2.x - speed } else p2
  let p4 := if k.d then { p3 with x := p3.x + speed } else p3
  { st with player := { st.player with meshPos := p4 } }

/-- Add the frame's hover offset to a mesh's y position. -/
def hoverMesh (h : ℚ) : MeshData → MeshData
  | .mk g mat p r c => .mk g mat { p with y := p.y + h } r c

/-- Apply a function at one index of a list, as a JS array element mutation. -/
def modifyAt {α : Type} (f : α → α) : ℕ → List α → List α
  | _, [] => []
  | 0, a :: l => f a :: l
  | n + 1, a :: l => a :: modifyAt f n l

/-- `animateVehicles(delta)` (lines 181–185): every vehicle mesh's y position is
shifted by the frame's hover offset `Math.sin(Date.now()*0.001)*delta`, supplied
here as the parameter `h`. -/
def animateVehicles (h : ℚ) (st : WorldState) : WorldState :=
  { st with meshes := st.vehicles.foldl (fun ms i => modifyAt (hoverMesh h) i ms) st.meshes }

/-- The per-frame inputs consumed by one `animate()` callback: the clock delta,
the held keys, the frame's hover offset, and the generation-failure oracle. -/
structure FrameInput where
  delta : ℚ
  keys : KeyState
  hover : ℚ
  fails : ℤ × ℤ → Bool

/-- Result of one `animate()` callback. -/
structure FrameResult where
  scheduledNext : Bool
  state : WorldState
  threw : Bool

/-- One `animate()` callback (lines 170–178).  `requestAnimationFrame(animate)`
is the first statement (line 171), so the next frame is scheduled before any
tick work runs; a generation throw therefore skips the rest of this frame's
body (`animateVehicles`, rendering) but cannot cancel the already-scheduled
next frame. -/
def animateStep (cfg : Config) (inp : FrameInput) (st : WorldState) : FrameResult :=
  let scheduledNext := true
  let st1 := updatePlayer inp.keys inp.delta st
  let r := updateChunksF cfg inp.fails st1
  if r.2 then ⟨scheduledNext, r.1, true⟩
  else ⟨scheduledNext, animateVehicles inp.hover r.1, false⟩

/-- The failure oracle that throws exactly on coordinate (0, 0). -/
def failAt00 : ℤ × ℤ → Bool := fun c => decide (c = (0, 0))

/-- The failure oracle that never throws. -/
def noFails : ℤ × ℤ → Bool := fun _ => false

/-- A concrete stationary frame whose generation throws on chunk (0, 0). -/
def frameInput1 : FrameInput := ⟨0, noKeys, 0, failAt00⟩

/-- A concrete stationary frame whose generation never throws. -/
def frameInput2 : FrameInput := ⟨0, noKeys, 0, noFails⟩

/-! ### Lifecycle call sequences (for frame conditions) -/

/-- One call into the chunk lifecycle manager: a full `updateChunks()` tick or a
direct `unloadChunk(id)`. -/
inductive LifecycleOp where
  | tick
  | unload (id : ChunkId)

/-- Apply one lifecycle call. -/
def applyOp (cfg : Config) (st : WorldState) : LifecycleOp → WorldState
  | .tick => updateChunks cfg st
  | .unload id => unloadChunk id st

/-- Apply a sequence of lifecycle calls in order. -/
def applyOps (cfg : Config) (st : WorldState) (ops : List LifecycleOp) : WorldState :=
  ops.foldl (applyOp cfg) st

/-- A registry key is well formed when it is the rendered id of some coordinate
pair.  All keys the system ever produces are of this shape; spec §7 treats any
other key as registry corruption. -/
def WFKey (id : ChunkId) : Prop := ∃ a b : ℤ, id = chunkIDChars a b

/-! ## Lemmas: decimal rendering and parsing -/

theorem isDigitCh_digitChar {d : ℕ} (h : d < 10) : isDigitCh (digitChar d) = true := by
  interval_cases d <;> decide

theorem digitVal_digitChar {d : ℕ} (h : d < 10) : digitVal (digitChar d) = d := by
  interval_cases d <;> decide

theorem digit_ne_dash {c : Char} (h : isDigitCh c = true) : c ≠ '-' := by
  intro he
  subst he
  exact absurd h (by decide)

theorem digit_ne_underscore {c : Char} (h : isDigitCh c = true) : c ≠ '_' := by
  intro he
  subst he
  exact absurd h (by decide)

theorem renderNat_ne_nil (n : ℕ) : renderNat n ≠ [] := by
  unfold renderNat
  split
  · simp
  · simp

theorem renderNat_digits (n : ℕ) : ∀ c ∈ renderNat n, isDigitCh c = true := by
  induction n using Nat.strong_induction_on with
  | _ n ih =>
    unfold renderNat
    split
    · next h =>
      intro c hc
      rw [List.mem_singleton] at hc
      subst hc
      exact isDigitCh_digitChar h
    · next h =>
      intro c hc
      rw [List.mem_append] at hc
      rcases hc with hc | hc
      · exact ih (n / 10) (Nat.div_lt_self (by omega) (by omega)) c hc
      · rw [List.mem_singleton] at hc
        subst hc
        exact isDigitCh_digitChar (Nat.mod_lt _ (by omega))

theorem foldl_natValStep_renderNat (n : ℕ) :
    ∀ a : ℕ, (renderNat n).foldl natValStep a = a * 10 ^ (renderNat n).length + n := by
  induction n using Nat.strong_induction_on with
  | _ n ih =>
    intro a
    unfold renderNat
    split
    · next h =>
      simp only [List.foldl_cons, List.foldl_nil, natValStep, digitVal_digitChar h,
        List.length_singleton, pow_one]
      omega
    · next h =>
      rw [List.foldl_append, List.length_append, List.foldl_cons, List.foldl_nil,
        ih (n / 10) (Nat.div_lt_self (by omega) (by omega)) a]
      simp only [natValStep, digitVal_digitChar (Nat.mod_lt n (by omega) : n % 10 < 10),
        List.length_singleton, pow_succ]
      generalize (10 : ℕ) ^ (renderNat (n / 10)).length = M
      have h2 : a * (M * 10) = a * M * 10 := by ring
      rw [h2]
      generalize a * M = N
      omega

theorem natVal_renderNat (n : ℕ) : natVal (renderNat n) = n := by
  have h := foldl_natValStep_renderNat n 0
  simpa [natVal] using h

theorem renderInt_no_underscore (n : ℤ) : ∀ c ∈ renderInt n, c ≠ '_' := by
  intro c hc
  unfold renderInt at hc
  split at hc
  · rw [List.mem_cons] at hc
    rcases hc with hc | hc
    · subst hc; decide
    · exact digit_ne_underscore (renderNat_digits _ c hc)
  · exact digit_ne_underscore (renderNat_digits _ c hc)

theorem parseIntChars_renderInt (n : ℤ) : parseIntChars (renderInt n) = some n := by
  unfold renderInt
  split
  · next hneg =>
    obtain ⟨c0, l0, hE⟩ := List.exists_cons_of_ne_nil (renderNat_ne_nil (-n).toNat)
    have hall : (c0 :: l0).all isDigitCh = true := by
      rw [List.all_eq_true]
      intro c hc
      exact renderNat_digits _ c (hE ▸ hc)
    have hval : natVal (c0 :: l0) = (-n).toNat := by rw [← hE, natVal_renderNat]
    rw [hE]
    simp [parseIntChars, hall, hval]
    omega
  · next hpos =>
    obtain ⟨c0, l0, hE⟩ := List.exists_cons_of_ne_nil (renderNat_ne_nil n.toNat)
    have hdig : ∀ c ∈ c0 :: l0, isDigitCh c = true := fun c hc =>
      renderNat_digits _ c (hE ▸ hc)
    have hd0 : isDigitCh c0 = true := hdig c0 (List.mem_cons_self c0 l0)
    have hall : l0.all isDigitCh = true := by
      rw [List.all_eq_true]
      intro c hc
      exact hdig c (List.mem_cons_of_mem c0 hc)
    have hval : natVal (c0 :: l0) = n.toNat := by rw [← hE, natVal_renderNat]
    rw [hE]
    simp [parseIntChars, digit_ne_dash hd0, hd0, hall, hval]
    omega

theorem splitOnUnderscore_no_sep (l : List Char) (h : ∀ c ∈ l, c ≠ '_') :
    splitOnUnderscore l = [l] := by
  induction l with
  | nil => rfl
  | cons c rest ih =>
    simp only [splitOnUnderscore]
    rw [if_neg (h c (List.mem_cons_self c rest)), ih (fun x hx => h x (List.mem_cons_of_mem c hx))]

theorem splitOnUnderscore_append (l1 l2 : List Char) (h : ∀ c ∈ l1, c ≠ '_') :
    splitOnUnderscore (l1 ++ '_' :: l2) = l1 :: splitOnUnderscore l2 := by
  induction l1 with
  | nil =>
    simp [splitOnUnderscore]
  | cons c rest ih =>
    simp only [List.cons_append, splitOnUnderscore, List.append_eq]
    rw [if_neg (h c (List.mem_cons_self c rest)), ih (fun x hx => h x (List.mem_cons_of_mem c hx))]

theorem parseChunkIDChars_chunkIDChars (a b : ℤ) :
    parseChunkIDChars (chunkIDChars a b) = some (a, b) := by
  unfold parseChunkIDChars chunkIDChars
  rw [splitOnUnderscore_append _ _ (renderInt_no_underscore a),
    splitOnUnderscore_no_sep _ (renderInt_no_underscore b)]
  simp [parseIntChars_renderInt]

theorem chunkIDChars_inj {a b a2 b2 : ℤ} (h : chunkIDChars a b = chunkIDChars a2 b2) :
    a = a2 ∧ b = b2 := by
  have h1 := parseChunkIDChars_chunkIDChars a b
  rw [h, parseChunkIDChars_chunkIDChars] at h1
  simp only [Option.some.injEq, Prod.mk.injEq] at h1
  exact ⟨h1.1.symm, h1.2.symm⟩

theorem shouldUnload_chunkIDChars (cx cz R a b : ℤ) :
    shouldUnload cx cz R (chunkIDChars a b) =
      (decide (R < |a - cx|) || decide (R < |b - cz|)) := by
  unfold shouldUnload chunkIDChars
  rw [splitOnUnderscore_append _ _ (renderInt_no_underscore a),
    splitOnUnderscore_no_sep _ (renderInt_no_underscore b)]
  simp [parseIntChars_renderInt, absGtOpt]

/-! ## Lemmas: loop ranges and the load window -/

theorem mem_intRange {lo hi m : ℤ} : m ∈ intRange lo hi ↔ lo ≤ m ∧ m ≤ hi := by
  simp only [intRange, List.mem_map, List.mem_range]
  constructor
  · rintro ⟨i, hi2, rfl⟩
    omega
  · intro h
    exact ⟨(m - lo).toNat, by omega, by omega⟩

theorem mem_windowList {cx cz R : ℤ} {c : ℤ × ℤ} :
    c ∈ windowList cx cz R ↔ |c.1 - cx| ≤ R ∧ |c.2 - cz| ≤ R := by
  obtain ⟨a, b⟩ := c
  dsimp only
  simp only [windowList, List.mem_flatten, List.mem_map]
  rw [abs_le, abs_le]
  constructor
  · rintro ⟨l, ⟨dx, hdx, rfl⟩, hmem⟩
    simp only [List.mem_map, Prod.mk.injEq] at hmem
    obtain ⟨dz, hdz, h1, h2⟩ := hmem
    rw [mem_intRange] at hdx hdz
    omega
  · rintro ⟨h1, h2⟩
    refine ⟨(intRange (-R) R).map (fun dz => (cx + (a - cx), cz + dz)),
      ⟨a - cx, ?_, rfl⟩, ?_⟩
    · rw [mem_intRange]
      omega
    · simp only [List.mem_map, Prod.mk.injEq]
      refine ⟨b - cz, ?_, by omega, by omega⟩
      rw [mem_intRange]
      omega

/-! ## Lemmas: association-list maps -/

theorem mapGet_set_self {α β : Type} [DecidableEq α] (m : List (α × β)) (k : α) (v : β) :
    mapGet (mapSet m k v) k = some v := by
  induction m with
  | nil => simp [mapSet, mapGet]
  | cons p m ih =>
    obtain ⟨pk, pv⟩ := p
    by_cases h : pk = k
    · subst h
      simp [mapSet, mapGet]
    · simp [mapSet, mapGet, h, ih]

theorem mem_keys_mapSet {α β : Type} [DecidableEq α] (m : List (α × β)) (k k2 : α) (v : β) :
    k2 ∈ (mapSet m k v).map Prod.fst ↔ k2 ∈ m.map Prod.fst ∨ k2 = k := by
  induction m with
  | nil => simp [mapSet]
  | cons p m ih =>
    obtain ⟨pk, pv⟩ := p
    by_cases h : pk = k
    · subst h
      simp [mapSet]
      tauto
    · simp [mapSet, h, ih]
      tauto

theorem mapHas_iff_mem_keys {α β : Type} [DecidableEq α] (m : List (α × β)) (k : α) :
    mapHas m k = true ↔ k ∈ m.map Prod.fst := by
  induction m with
  | nil => simp [mapHas, mapGet]
  | cons p m ih =>
    obtain ⟨pk, pv⟩ := p
    by_cases h : pk = k
    · subst h
      simp [mapHas, mapGet]
    · rw [mapHas] at ih
      simp [mapHas, mapGet, h, ih]
      tauto

theorem mapSet_of_not_has {α β : Type} [DecidableEq α] (m : List (α × β)) (k : α) (v : β)
    (h : mapHas m k = false) : mapSet m k v = m ++ [(k, v)] := by
  induction m with
  | nil => rfl
  | cons p m ih =>
    obtain ⟨pk, pv⟩ := p
    by_cases hp : pk = k
    · subst hp
      simp [mapHas, mapGet] at h
    · rw [mapHas, mapGet, if_neg hp] at h
      rw [mapSet, if_neg hp, ih h]
      rfl

theorem mem_mapSet_of_not_has {α β : Type} [DecidableEq α] {m : List (α × β)} {k : α} {v : β}
    (h : mapHas m k = false) {p : α × β} (hp : p ∈ m) : p ∈ mapSet m k v := by
  rw [mapSet_of_not_has m k v h]
  exact List.mem_append_left _ hp

/-! ## Lemmas: frame conditions and registry characterizations -/

theorem createChunk_chunks (cfg : Config) (cx cz : ℤ) (id : ChunkId) (st : WorldState) :
    (createChunk cfg cx cz id st).chunks
      = mapSet st.chunks id (genGroup cfg cx cz st.rng st.rngIdx).1 := rfl

theorem createChunk_player (cfg : Config) (cx cz : ℤ) (id : ChunkId) (st : WorldState) :
    (createChunk cfg cx cz id st).player = st.player := rfl

theorem createChunk_frame (cfg : Config) (cx cz : ℤ) (id : ChunkId) (st : WorldState) :
    (createChunk cfg cx cz id st).playerStructures = st.playerStructures ∧
    (createChunk cfg cx cz id st).vehicles = st.vehicles ∧
    (createChunk cfg cx cz id st).meshes = st.meshes ∧
    (createChunk cfg cx cz id st).scene.vehicleRefs = st.scene.vehicleRefs ∧
    (createChunk cfg cx cz id st).rng = st.rng :=
  ⟨rfl, rfl, rfl, rfl, rfl⟩

theorem mem_keys_createChunk (cfg : Config) (cx cz : ℤ) (cid : ChunkId) (st : WorldState)
    (id : ChunkId) :
    id ∈ (createChunk cfg cx cz cid st).chunks.map Prod.fst ↔
      id ∈ st.chunks.map Prod.fst ∨ id = cid := by
  rw [createChunk_chunks]
  exact mem_keys_mapSet _ _ _ _

theorem unloadChunk_chunks (id : ChunkId) (st : WorldState) :
    (unloadChunk id st).chunks = st.chunks.filter (fun p => !decide (p.1 = id)) := by
  unfold unloadChunk
  split
  · rfl
  · next h =>
    have hnm : id ∉ st.chunks.map Prod.fst := by
      rw [← mapHas_iff_mem_keys]
      simp [h]
    refine (List.filter_eq_self.mpr ?_).symm
    intro p hp
    simp only [Bool.not_eq_eq_eq_not, Bool.not_true, decide_eq_false_iff_not]
    intro he
    exact hnm (he ▸ List.mem_map_of_mem Prod.fst hp)

theorem unloadChunk_player (id : ChunkId) (st : WorldState) :
    (unloadChunk id st).player = st.player := by
  unfold unloadChunk
  split <;> rfl

theorem unloadChunk_frame (id : ChunkId) (st : WorldState) :
    (unloadChunk id st).playerStructures = st.playerStructures ∧
    (unloadChunk id st).vehicles = st.vehicles ∧
    (unloadChunk id st).meshes = st.meshes ∧
    (unloadChunk id st).scene.vehicleRefs = st.scene.vehicleRefs ∧
    (unloadChunk id st).rng = st.rng ∧
    (unloadChunk id st).rngIdx = st.rngIdx := by
  unfold unloadChunk
  split <;> exact ⟨rfl, rfl, rfl, rfl, rfl, rfl⟩

theorem loadPass_player (cfg : Config) (cs : List (ℤ × ℤ)) :
    ∀ st : WorldState, (loadPass cfg st cs).1.player = st.player := by
  induction cs with
  | nil => intro st; rfl
  | cons c cs ih =>
    intro st
    simp only [loadPass]
    split
    · exact ih st
    · exact (ih _).trans (createChunk_player cfg c.1 c.2 _ st)

theorem loadPass_structures (cfg : Config) (cs : List (ℤ × ℤ)) :
    ∀ st : WorldState, (loadPass cfg st cs).1.playerStructures = st.playerStructures := by
  induction cs with
  | nil => intro st; rfl
  | cons c cs ih =>
    intro st
    simp only [loadPass]
    split
    · exact ih st
    · exact (ih _).trans (createChunk_frame cfg c.1 c.2 _ st).1

theorem loadPass_frame (cfg : Config) (cs : List (ℤ × ℤ)) :
    ∀ st : WorldState,
      (loadPass cfg st cs).1.vehicles = st.vehicles ∧
      (loadPass cfg st cs).1.meshes = st.meshes ∧
      (loadPass cfg st cs).1.scene.vehicleRefs = st.scene.vehicleRefs ∧
      (loadPass cfg st cs).1.rng = st.rng := by
  induction cs with
  | nil => intro st; exact ⟨rfl, rfl, rfl, rfl⟩
  | cons c cs ih =>
    intro st
    simp only [loadPass]
    split
    · exact ih st
    · obtain ⟨h1, h2, h3, h4⟩ := ih (createChunk cfg c.1 c.2 (chunkIDChars c.1 c.2) st)
      exact ⟨h1, h2, h3, h4⟩

theorem loadPass_keys (cfg : Config) (cs : List (ℤ × ℤ)) :
    ∀ (st : WorldState) (id : ChunkId),
      id ∈ (loadPass cfg st cs).1.chunks.map Prod.fst ↔
        id ∈ st.chunks.map Prod.fst ∨ ∃ c ∈ cs, id = chunkIDChars c.1 c.2 := by
  induction cs with
  | nil =>
    intro st id
    simp [loadPass]
  | cons c cs ih =>
    intro st id
    simp only [loadPass]
    split
    · next h =>
      rw [ih]
      constructor
      · rintro (hm | ⟨c2, hc2, rfl⟩)
        · exact Or.inl hm
        · exact Or.inr ⟨c2, List.mem_cons_of_mem c hc2, rfl⟩
      · rintro (hm | ⟨c2, hc2, rfl⟩)
        · exact Or.inl hm
        · rcases List.mem_cons.mp hc2 with rfl | hc2
          · exact Or.inl ((mapHas_iff_mem_keys _ _).mp h)
          · exact Or.inr ⟨c2, hc2, rfl⟩
    · next h =>
      dsimp only
      rw [ih, mem_keys_createChunk]
      constructor
      · rintro ((hm | rfl) | ⟨c2, hc2, rfl⟩)
        · exact Or.inl hm
        · exact Or.inr ⟨c, List.mem_cons_self c cs, rfl⟩
        · exact Or.inr ⟨c2, List.mem_cons_of_mem c hc2, rfl⟩
      · rintro (hm | ⟨c2, hc2, rfl⟩)
        · exact Or.inl (Or.inl hm)
        · rcases List.mem_cons.mp hc2 with rfl | hc2
          · exact Or.inl (Or.inr rfl)
          · exact Or.inr ⟨c2, hc2, rfl⟩

theorem loadPass_entries (cfg : Config) (cs : List (ℤ × ℤ)) :
    ∀ (st : WorldState) (p : ChunkId × Chunk),
      p ∈ st.chunks → p ∈ (loadPass cfg st cs).1.chunks := by
  induction cs with
  | nil =>
    intro st p hp
    exact hp
  | cons c cs ih =>
    intro st p hp
    simp only [loadPass]
    split
    · exact ih st p hp
    · next h =>
      refine ih _ p ?_
      rw [createChunk_chunks]
      exact mem_mapSet_of_not_has (by simp [h]) hp

theorem loadPass_all_present (cfg : Config) (cs : List (ℤ × ℤ)) :
    ∀ st : WorldState,
      (∀ c ∈ cs, mapHas st.chunks (chunkIDChars c.1 c.2) = true) →
      loadPass cfg st cs = (st, []) := by
  induction cs with
  | nil =>
    intro st _
    rfl
  | cons c cs ih =>
    intro st h
    simp only [loadPass]
    rw [if_pos (h c (List.mem_cons_self c cs))]
    exact ih st (fun c2 hc2 => h c2 (List.mem_cons_of_mem c hc2))

theorem unloadFold_chunks (ids : List ChunkId) :
    ∀ st : WorldState,
      (ids.foldl (fun s i => unloadChunk i s) st).chunks
        = st.chunks.filter (fun p => !decide (p.1 ∈ ids)) := by
  induction ids with
  | nil =>
    intro st
    simp
  | cons i ids ih =>
    intro st
    rw [List.foldl_cons, ih, unloadChunk_chunks, List.filter_filter]
    apply List.filter_congr
    intro p hp
    simp only [List.mem_cons]
    by_cases h1 : p.1 = i <;> by_cases h2 : p.1 ∈ ids <;> simp [h1, h2]

theorem unloadFold_player (ids : List ChunkId) :
    ∀ st : WorldState,
      (ids.foldl (fun s i => unloadChunk i s) st).player = st.player := by
  induction ids with
  | nil => intro st; rfl
  | cons i ids ih =>
    intro st
    rw [List.foldl_cons, ih, unloadChunk_player]

theorem unloadFold_frame (ids : List ChunkId) :
    ∀ st : WorldState,
      (ids.foldl (fun s i => unloadChunk i s) st).playerStructures = st.playerStructures ∧
      (ids.foldl (fun s i => unloadChunk i s) st).vehicles = st.vehicles ∧
      (ids.foldl (fun s i => unloadChunk i s) st).meshes = st.meshes ∧
      (ids.foldl (fun s i => unloadChunk i s) st).scene.vehicleRefs = st.scene.vehicleRefs ∧
      (ids.foldl (fun s i => unloadChunk i s) st).rng = st.rng ∧
      (ids.foldl (fun s i => unloadChunk i s) st).rngIdx = st.rngIdx := by
  induction ids with
  | nil => intro st; exact ⟨rfl, rfl, rfl, rfl, rfl, rfl⟩
  | cons i ids ih =>
    intro st
    rw [List.foldl_cons]
    obtain ⟨h1, h2, h3, h4, h5, h6⟩ := ih (unloadChunk i st)
    obtain ⟨g1, g2, g3, g4, g5, g6⟩ := unloadChunk_frame i st
    exact ⟨h1.trans g1, h2.trans g2, h3.trans g3, h4.trans g4, h5.trans g5, h6.trans g6⟩

theorem updateChunksT_def (cfg : Config) (st : WorldState) :
    updateChunksT cfg st =
      ((tickUnloadIds cfg st).foldl (fun s i => unloadChunk i s) (tickMid cfg st),
       tickLoaded cfg st, tickUnloadIds cfg st) := rfl

theorem updateChunks_def (cfg : Config) (st : WorldState) :
    updateChunks cfg st =
      (tickUnloadIds cfg st).foldl (fun s i => unloadChunk i s) (tickMid cfg st) := rfl

theorem updateChunks_player (cfg : Config) (st : WorldState) :
    (updateChunks cfg st).player = st.player := by
  rw [updateChunks_def, unloadFold_player]
  exact loadPass_player cfg _ st

theorem updateChunks_pcx (cfg : Config) (st : WorldState) :
    pcx cfg (updateChunks cfg st) = pcx cfg st := by
  unfold pcx
  rw [updateChunks_player]

theorem updateChunks_pcz (cfg : Config) (st : WorldState) :
    pcz cfg (updateChunks cfg st) = pcz cfg st := by
  unfold pcz
  rw [updateChunks_player]

theorem updateChunks_structures (cfg : Config) (st : WorldState) :
    (updateChunks cfg st).playerStructures = st.playerStructures := by
  rw [updateChunks_def, ((unloadFold_frame _ _).1 : _)]
  exact loadPass_structures cfg _ st

theorem updateChunks_vframe (cfg : Config) (st : WorldState) :
    (updateChunks cfg st).vehicles = st.vehicles ∧
    (updateChunks cfg st).meshes = st.meshes ∧
    (updateChunks cfg st).scene.vehicleRefs = st.scene.vehicleRefs ∧
    (updateChunks cfg st).rng = st.rng := by
  rw [updateChunks_def]
  obtain ⟨u1, u2, u3, u4, u5, u6⟩ := unloadFold_frame (tickUnloadIds cfg st) (tickMid cfg st)
  obtain ⟨l1, l2, l3, l4⟩ := loadPass_frame cfg (tickWindow cfg st) st
  exact ⟨u2.trans l1, u3.trans l2, u4.trans l3, u5.trans l4⟩

theorem updateChunks_keys_core (cfg : Config) (st : WorldState)
    (hwf : ∀ id ∈ keysOf st, WFKey id) (id : ChunkId) :
    id ∈ keysOf (updateChunks cfg st) ↔
      ∃ a b : ℤ, id = chunkIDChars a b ∧
        |a - pcx cfg st| ≤ cfg.loadedRadius ∧ |b - pcz cfg st| ≤ cfg.loadedRadius := by
  unfold keysOf
  rw [updateChunks_def, unloadFold_chunks]
  unfold tickUnloadIds tickMid tickWindow
  set cx := pcx cfg st with hcx
  set cz := pcz cfg st with hcz
  set R := cfg.loadedRadius with hR
  set mid := (loadPass cfg st (windowList cx cz R)).1 with hmid
  set ids := ((mid.chunks.filter (fun p => shouldUnload cx cz R p.1)).map Prod.fst) with hids
  have hidsmem : ∀ i : ChunkId, i ∈ ids ↔
      ∃ p ∈ mid.chunks, p.1 = i ∧ shouldUnload cx cz R i = true := by
    intro i
    rw [hids]
    simp only [List.mem_map, List.mem_filter]
    constructor
    · rintro ⟨p, ⟨hp, hs⟩, rfl⟩
      exact ⟨p, hp, rfl, hs⟩
    · rintro ⟨p, hp, rfl, hs⟩
      exact ⟨p, ⟨hp, hs⟩, rfl⟩
  have hmidkeys : ∀ i, i ∈ mid.chunks.map Prod.fst ↔
      i ∈ st.chunks.map Prod.fst ∨ ∃ c ∈ windowList cx cz R, i = chunkIDChars c.1 c.2 :=
    fun i => loadPass_keys cfg _ st i
  have hwfmid : ∀ i ∈ mid.chunks.map Prod.fst, WFKey i := by
    intro i hi
    rcases (hmidkeys i).mp hi with h | ⟨c, _, rfl⟩
    · exact hwf i h
    · exact ⟨c.1, c.2, rfl⟩
  constructor
  · intro hmem
    simp only [List.mem_map, List.mem_filter] at hmem
    obtain ⟨p, ⟨hp, hkeep⟩, rfl⟩ := hmem
    have hpk : p.1 ∈ mid.chunks.map Prod.fst := List.mem_map_of_mem Prod.fst hp
    obtain ⟨a, b, hab⟩ := hwfmid p.1 hpk
    have hsu : shouldUnload cx cz R p.1 = false := by
      cases hval : shouldUnload cx cz R p.1
      · rfl
      · exfalso
        have hpin : p.1 ∈ ids := (hidsmem p.1).mpr ⟨p, hp, rfl, hval⟩
        simp [hpin] at hkeep
    rw [hab, shouldUnload_chunkIDChars] at hsu
    simp only [Bool.or_eq_false_iff, decide_eq_false_iff_not, not_lt] at hsu
    exact ⟨a, b, hab, hsu.1, hsu.2⟩
  · rintro ⟨a, b, rfl, h1, h2⟩
    have hin : chunkIDChars a b ∈ mid.chunks.map Prod.fst :=
      (hmidkeys _).mpr (Or.inr ⟨(a, b), mem_windowList.mpr ⟨h1, h2⟩, rfl⟩)
    obtain ⟨p, hp, hpeq⟩ := List.mem_map.mp hin
    refine List.mem_map.mpr ⟨p, List.mem_filter.mpr ⟨hp, ?_⟩, hpeq⟩
    have hsu : shouldUnload cx cz R (chunkIDChars a b) = false := by
      rw [shouldUnload_chunkIDChars]
      simp only [Bool.or_eq_false_iff, decide_eq_false_iff_not, not_lt]
      exact ⟨h1, h2⟩
    simp only [Bool.not_eq_eq_eq_not, Bool.not_true, decide_eq_false_iff_not]
    intro hpin
    obtain ⟨q, hq, hqeq, hqsu⟩ := (hidsmem p.1).mp hpin
    rw [hpeq, hsu] at hqsu
    exact Bool.false_ne_true hqsu

theorem tick_no_unload (cfg : Config) (st : WorldState) :
    ∀ p ∈ (updateChunks cfg st).chunks,
      shouldUnload (pcx cfg st) (pcz cfg st) cfg.loadedRadius p.1 = false := by
  intro p hp
  rw [updateChunks_def, unloadFold_chunks, List.mem_filter] at hp
  obtain ⟨hpmid, hkeep⟩ := hp
  cases hval : shouldUnload (pcx cfg st) (pcz cfg st) cfg.loadedRadius p.1
  · rfl
  · exfalso
    have hpin : p.1 ∈ tickUnloadIds cfg st := by
      unfold tickUnloadIds
      exact List.mem_map.mpr ⟨p, List.mem_filter.mpr ⟨hpmid, hval⟩, rfl⟩
    simp [hpin] at hkeep

theorem tick_window_present (cfg : Config) (st : WorldState) :
    ∀ c ∈ tickWindow cfg st,
      mapHas (updateChunks cfg st).chunks (chunkIDChars c.1 c.2) = true := by
  intro c hc
  have hc2 : c ∈ windowList (pcx cfg st) (pcz cfg st) cfg.loadedRadius := hc
  have hbounds := mem_windowList.mp hc2
  have hsu : shouldUnload (pcx cfg st) (pcz cfg st) cfg.loadedRadius
      (chunkIDChars c.1 c.2) = false := by
    rw [shouldUnload_chunkIDChars]
    simp only [Bool.or_eq_false_iff, decide_eq_false_iff_not, not_lt]
    exact hbounds
  have hmid : chunkIDChars c.1 c.2 ∈ (tickMid cfg st).chunks.map Prod.fst :=
    (loadPass_keys cfg (tickWindow cfg st) st _).mpr (Or.inr ⟨c, hc, rfl⟩)
  obtain ⟨p, hp, hpeq⟩ := List.mem_map.mp hmid
  rw [updateChunks_def, mapHas_iff_mem_keys, unloadFold_chunks]
  refine List.mem_map.mpr ⟨p, List.mem_filter.mpr ⟨hp, ?_⟩, hpeq⟩
  simp only [Bool.not_eq_eq_eq_not, Bool.not_true, decide_eq_false_iff_not]
  intro hpin
  unfold tickUnloadIds at hpin
  obtain ⟨q, hq, hqeq⟩ := List.mem_map.mp hpin
  rw [List.mem_filter] at hq
  have hqsu := hq.2
  rw [hqeq, hpeq, hsu] at hqsu
  exact Bool.false_ne_true hqsu

theorem tick_fixpoint (cfg : Config) (st : WorldState) :
    updateChunksT cfg (updateChunks cfg st) = (updateChunks cfg st, [], []) := by
  set st1 := updateChunks cfg st with hst1
  have hpcx : pcx cfg st1 = pcx cfg st := by rw [hst1, updateChunks_pcx]
  have hpcz : pcz cfg st1 = pcz cfg st := by rw [hst1, updateChunks_pcz]
  have hwin : tickWindow cfg st1 = tickWindow cfg st := by
    unfold tickWindow
    rw [hpcx, hpcz]
  have hA : ∀ c ∈ tickWindow cfg st1, mapHas st1.chunks (chunkIDChars c.1 c.2) = true := by
    rw [hwin]
    exact fun c hc => tick_window_present cfg st c hc
  have hload : loadPass cfg st1 (tickWindow cfg st1) = (st1, []) :=
    loadPass_all_present cfg _ st1 hA
  have hmid : tickMid cfg st1 = st1 := by
    unfold tickMid
    rw [hload]
  have hloaded : tickLoaded cfg st1 = [] := by
    unfold tickLoaded
    rw [hload]
  have hids : tickUnloadIds cfg st1 = [] := by
    unfold tickUnloadIds
    rw [hmid, hpcx, hpcz]
    have hfil : st1.chunks.filter
        (fun p => shouldUnload (pcx cfg st) (pcz cfg st) cfg.loadedRadius p.1) = [] := by
      rw [List.filter_eq_nil_iff]
      intro p hp
      simp [tick_no_unload cfg st p (hst1 ▸ hp)]
    rw [hfil]
    rfl
  rw [updateChunksT_def, hmid, hloaded, hids]
  rfl

/-! ## Lemmas: the load loop under generation failure -/

theorem loadPassF_player (cfg : Config) (fails : ℤ × ℤ → Bool) (cs : List (ℤ × ℤ)) :
    ∀ st : WorldState, (loadPassF cfg fails st cs).1.player = st.player := by
  induction cs with
  | nil => intro st; rfl
  | cons c cs ih =>
    intro st
    simp only [loadPassF]
    split
    · exact ih st
    · split
      · rfl
      · exact (ih _).trans (createChunk_player cfg c.1 c.2 _ st)

theorem loadPassF_entries (cfg : Config) (fails : ℤ × ℤ → Bool) (cs : List (ℤ × ℤ)) :
    ∀ (st : WorldState) (p : ChunkId × Chunk),
      p ∈ st.chunks → p ∈ (loadPassF cfg fails st cs).1.chunks := by
  induction cs with
  | nil => intro st p hp; exact hp
  | cons c cs ih =>
    intro st p hp
    simp only [loadPassF]
    split
    · exact ih st p hp
    · next h =>
      split
      · exact hp
      · refine ih _ p ?_
        rw [createChunk_chunks]
        exact mem_mapSet_of_not_has (by simp [h]) hp

theorem loadPassF_keys_sub (cfg : Config) (fails : ℤ × ℤ → Bool) (cs : List (ℤ × ℤ)) :
    ∀ (st : WorldState) (id : ChunkId),
      id ∈ (loadPassF cfg fails st cs).1.chunks.map Prod.fst →
      id ∈ st.chunks.map Prod.fst ∨
        ∃ c ∈ cs, id = chunkIDChars c.1 c.2 ∧ fails c = false := by
  induction cs with
  | nil => intro st id hid; exact Or.inl hid
  | cons c cs ih =>
    intro st id hid
    simp only [loadPassF] at hid
    split at hid
    · rcases ih st id hid with h | ⟨c2, hc2, heq, hfc⟩
      · exact Or.inl h
      · exact Or.inr ⟨c2, List.mem_cons_of_mem c hc2, heq, hfc⟩
    · split at hid
      · exact Or.inl hid
      · next h1 h2 =>
        rcases ih _ id hid with h | ⟨c2, hc2, heq, hfc⟩
        · rcases (mem_keys_createChunk cfg c.1 c.2 _ st id).mp h with hm | rfl
          · exact Or.inl hm
          · refine Or.inr ⟨c, List.mem_cons_self c cs, rfl, ?_⟩
            cases hval : fails c
            · rfl
            · exact absurd hval h2
        · exact Or.inr ⟨c2, List.mem_cons_of_mem c hc2, heq, hfc⟩

theorem loadPassF_throws (cfg : Config) (fails : ℤ × ℤ → Bool) (cs : List (ℤ × ℤ)) :
    ∀ st : WorldState,
      (∃ c ∈ cs, fails c = true ∧ chunkIDChars c.1 c.2 ∉ st.chunks.map Prod.fst) →
      (loadPassF cfg fails st cs).2 = true := by
  induction cs with
  | nil =>
    rintro st ⟨c, hc, _⟩
    simp at hc
  | cons c0 cs ih =>
    rintro st ⟨c, hc, hf, habs⟩
    simp only [loadPassF]
    split
    · next h =>
      apply ih
      rcases List.mem_cons.mp hc with rfl | hc2
      · exact absurd ((mapHas_iff_mem_keys _ _).mp h) habs
      · exact ⟨c, hc2, hf, habs⟩
    · next h =>
      split
      · rfl
      · next h2 =>
        apply ih
        rcases List.mem_cons.mp hc with rfl | hc2
        · exact absurd hf h2
        · refine ⟨c, hc2, hf, ?_⟩
          rw [mem_keys_createChunk]
          rintro (hm | heq)
          · exact habs hm
          · obtain ⟨h1, h3⟩ := chunkIDChars_inj heq
            have hceq : c = c0 := Prod.ext h1 h3
            rw [hceq] at hf
            exact absurd hf h2

theorem loadPassF_no_fail (cfg : Config) (fails : ℤ × ℤ → Bool)
    (h : ∀ c, fails c = false) (cs : List (ℤ × ℤ)) :
    ∀ st : WorldState, loadPassF cfg fails st cs = ((loadPass cfg st cs).1, false) := by
  induction cs with
  | nil => intro st; rfl
  | cons c cs ih =>
    intro st
    simp only [loadPassF, loadPass]
    split
    · exact ih st
    · rw [if_neg (by simp [h c])]
      exact ih _

theorem updateChunksF_no_fail (cfg : Config) (fails : ℤ × ℤ → Bool) (st : WorldState)
    (h : ∀ c, fails c = false) :
    updateChunksF cfg fails st = (updateChunks cfg st, false) := by
  simp only [updateChunksF]
  rw [loadPassF_no_fail cfg fails h _ st]
  rfl

theorem updateChunksF_throws (cfg : Config) (fails : ℤ × ℤ → Bool) (st : WorldState)
    (h : ∃ c ∈ tickWindow cfg st, fails c = true ∧
      chunkIDChars c.1 c.2 ∉ st.chunks.map Prod.fst) :
    updateChunksF cfg fails st =
      ((loadPassF cfg fails st (tickWindow cfg st)).1, true) := by
  have hth : (loadPassF cfg fails st
      (windowList (pcx cfg st) (pcz cfg st) cfg.loadedRadius)).2 = true :=
    loadPassF_throws cfg fails _ st h
  simp only [updateChunksF]
  rw [hth]
  rfl

/-! ## Lemmas: movement and per-frame animation -/

theorem updatePlayer_noKeys (delta : ℚ) (st : WorldState) :
    updatePlayer noKeys delta st = st := rfl

theorem updatePlayer_spawn_fields (k : KeyState) (delta : ℚ) (st : WorldState) :
    (updatePlayer k delta st).player.x = st.player.x ∧
    (updatePlayer k delta st).player.y = st.player.y ∧
    (updatePlayer k delta st).player.z = st.player.z ∧
    (updatePlayer k delta st).playerStructures = st.playerStructures := ⟨rfl, rfl, rfl, rfl⟩

theorem animateVehicles_chunks (h : ℚ) (st : WorldState) :
    (animateVehicles h st).chunks = st.chunks := rfl

theorem animateVehicles_structures (h : ℚ) (st : WorldState) :
    (animateVehicles h st).playerStructures = st.playerStructures := rfl

/-! ## Lemmas: chunk generation geometry -/

theorem floor_intCast_add_unit (c : ℤ) (r : ℚ) (h0 : 0 ≤ r) (h1 : r < 1) :
    ⌊(c : ℚ) + r⌋ = c := by
  rw [Int.floor_int_add, Int.floor_eq_zero_iff.mpr ⟨h0, h1⟩, add_zero]

theorem offset_div_chunkSize (s : ℚ) (hs : 0 < s) (c : ℤ) (r : ℚ) :
    ((r - 1/2) * s + (c : ℚ) * s) / s + 1/2 = (c : ℚ) + r := by
  have hne : s ≠ 0 := ne_of_gt hs
  field_simp
  ring

theorem offset_div_chunkSize2 (s : ℚ) (hs : 0 < s) (c : ℤ) (r : ℚ) :
    ((c : ℚ) * s + (r - 1/2) * s) / s + 1/2 = (c : ℚ) + r := by
  have hne : s ≠ 0 := ne_of_gt hs
  field_simp
  ring

theorem genBlocks_centered (cfg : Config) (cx cz : ℤ) (rng : ℕ → ℚ)
    (hr : ∀ j : ℕ, 0 ≤ rng j ∧ rng j < 1) (hs : 0 < cfg.chunkSize) :
    ∀ (n k : ℕ), ∀ m ∈ (genBlocks cfg cx cz rng k n).1,
      ⌊m.position.x / cfg.chunkSize + 1/2⌋ = cx ∧
      ⌊m.position.z / cfg.chunkSize + 1/2⌋ = cz ∧
      2 * m.position.y = heightOf m.geometry := by
  intro n
  induction n with
  | zero =>
    intro k m hm
    simp [genBlocks] at hm
  | succ n ih =>
    intro k m hm
    simp only [genBlocks, List.mem_cons] at hm
    rcases hm with rfl | hm
    · refine ⟨?_, ?_, ?_⟩
      · rw [(by rfl :
          (⟨Geometry.box 1 (rng (k + 2) * 2) 1, ⟨0x333333, false⟩,
            ⟨(rng k - 1/2) * cfg.chunkSize + cx * cfg.chunkSize,
             rng (k + 2) * 2 / 2,
             (rng (k + 1) - 1/2) * cfg.chunkSize + cz * cfg.chunkSize⟩⟩ : Prim).position.x
            = (rng k - 1/2) * cfg.chunkSize + (cx : ℚ) * cfg.chunkSize),
          offset_div_chunkSize cfg.chunkSize hs cx (rng k)]
        exact floor_intCast_add_unit cx (rng k) (hr k).1 (hr k).2
      · rw [(by rfl :
          (⟨Geometry.box 1 (rng (k + 2) * 2) 1, ⟨0x333333, false⟩,
            ⟨(rng k - 1/2) * cfg.chunkSize + cx * cfg.chunkSize,
             rng (k + 2) * 2 / 2,
             (rng (k + 1) - 1/2) * cfg.chunkSize + cz * cfg.chunkSize⟩⟩ : Prim).position.z
            = (rng (k + 1) - 1/2) * cfg.chunkSize + (cz : ℚ) * cfg.chunkSize),
          offset_div_chunkSize cfg.chunkSize hs cz (rng (k + 1))]
        exact floor_intCast_add_unit cz (rng (k + 1)) (hr (k + 1)).1 (hr (k + 1)).2
      · show 2 * (rng (k + 2) * 2 / 2) = rng (k + 2) * 2
        ring
    · exact ih (k + 3) m hm

theorem genBuildings_centered (cfg : Config) (cx cz : ℤ) (rng : ℕ → ℚ)
    (hr : ∀ j : ℕ, 0 ≤ rng j ∧ rng j < 1) (hs : 0 < cfg.chunkSize) :
    ∀ (n k : ℕ), ∀ m ∈ (genBuildings cfg cx cz rng k n).1,
      ⌊m.position.x / cfg.chunkSize + 1/2⌋ = cx ∧
      ⌊m.position.z / cfg.chunkSize + 1/2⌋ = cz ∧
      2 * m.position.y = heightOf m.geometry := by
  intro n
  induction n with
  | zero =>
    intro k m hm
    simp [genBuildings] at hm
  | succ n ih =>
    intro k m hm
    simp only [genBuildings, List.mem_cons] at hm
    rcases hm with rfl | hm
    · refine ⟨?_, ?_, ?_⟩
      · show ⌊((cx : ℚ) * cfg.chunkSize + (rng (k + 3) - 1/2) * cfg.chunkSize) / cfg.chunkSize
            + 1/2⌋ = cx
        rw [offset_div_chunkSize2 cfg.chunkSize hs cx (rng (k + 3))]
        exact floor_intCast_add_unit cx (rng (k + 3)) (hr (k + 3)).1 (hr (k + 3)).2
      · show ⌊((cz : ℚ) * cfg.chunkSize + (rng (k + 4) - 1/2) * cfg.chunkSize) / cfg.chunkSize
            + 1/2⌋ = cz
        rw [offset_div_chunkSize2 cfg.chunkSize hs cz (rng (k + 4))]
        exact floor_intCast_add_unit cz (rng (k + 4)) (hr (k + 4)).1 (hr (k + 4)).2
      · show 2 * ((rng (k + 1) * 5 + 3) / 2) = rng (k + 1) * 5 + 3
        ring
    · exact ih (k + 5) m hm

theorem genGroup_centered (cfg : Config) (cx cz : ℤ) (rng : ℕ → ℚ)
    (hr : ∀ j : ℕ, 0 ≤ rng j ∧ rng j < 1) (hs : 0 < cfg.chunkSize) (k : ℕ) :
    ∀ m ∈ (genGroup cfg cx cz rng k).1,
      ⌊m.position.x / cfg.chunkSize + 1/2⌋ = cx ∧
      ⌊m.position.z / cfg.chunkSize + 1/2⌋ = cz ∧
      2 * m.position.y = heightOf m.geometry := by
  intro m hm
  simp only [genGroup, List.mem_append] at hm
  rcases hm with hm | hm
  · exact genBlocks_centered cfg cx cz rng hr hs cfg.terrainCount k m hm
  · exact genBuildings_centered cfg cx cz rng hr hs cfg.buildingCount _ m hm

/-! ## Lemmas: vehicles, structures and movement -/

theorem genGroup_head (cfg : Config) (cx cz : ℤ) (rng : ℕ → ℚ) (k n : ℕ)
    (hT : cfg.terrainCount = n + 1) :
    (genGroup cfg cx cz rng k).1.head? =
      some ⟨.box 1 (rng (k + 2) * 2) 1, ⟨0x333333, false⟩,
        ⟨(rng k - 1/2) * cfg.chunkSize + cx * cfg.chunkSize, rng (k + 2) * 2 / 2,
         (rng (k + 1) - 1/2) * cfg.chunkSize + cz * cfg.chunkSize⟩⟩ := by
  simp [genGroup, hT, genBlocks]

theorem hoverFold_structures (hovers : List ℚ) :
    ∀ st : WorldState,
      (hovers.foldl (fun s h => animateVehicles h s) st).playerStructures
        = st.playerStructures := by
  induction hovers with
  | nil => intro st; rfl
  | cons h hs ih =>
    intro st
    rw [List.foldl_cons, ih, animateVehicles_structures]

theorem moveFold_fields (moves : List (KeyState × ℚ)) :
    ∀ st : WorldState,
      (moves.foldl (fun s kd => updatePlayer kd.1 kd.2 s) st).player.x = st.player.x ∧
      (moves.foldl (fun s kd => updatePlayer kd.1 kd.2 s) st).player.y = st.player.y ∧
      (moves.foldl (fun s kd => updatePlayer kd.1 kd.2 s) st).player.z = st.player.z ∧
      (moves.foldl (fun s kd => updatePlayer kd.1 kd.2 s) st).playerStructures
        = st.playerStructures := by
  induction moves with
  | nil => intro st; exact ⟨rfl, rfl, rfl, rfl⟩
  | cons kd moves ih =>
    intro st
    rw [List.foldl_cons]
    obtain ⟨h1, h2, h3, h4⟩ := ih (updatePlayer kd.1 kd.2 st)
    obtain ⟨g1, g2, g3, g4⟩ := updatePlayer_spawn_fields kd.1 kd.2 st
    exact ⟨h1.trans g1, h2.trans g2, h3.trans g3, h4.trans g4⟩

theorem buildVehicle_structures_fields (t : String) (sid : ℕ) (st st2 : WorldState)
    (hx : st2.player.x = st.player.x) (hy : st2.player.y = st.player.y)
    (hz : st2.player.z = st.player.z)
    (hps : st2.playerStructures = st.playerStructures) :
    (buildVehicle t sid st2).playerStructures = (buildVehicle t sid st).playerStructures := by
  by_cases hp : t = "plane"
  · subst hp
    simp [buildVehicle, buildMesh?, saveStructure, addVehicleMesh, structureOf, planeMesh,
      hx, hy, hz, hps]
  · by_cases hb : t = "boat"
    · subst hb
      simp [buildVehicle, buildMesh?, saveStructure, addVehicleMesh, structureOf, boatMesh,
        hp, hx, hz, hps]
    · simp [buildVehicle, buildMesh?, hp, hb, hps]

/-! ## Claims -/

/-- C1: for every player position (hence every player chunk coordinate P),
chunk size > 0 and configured radius R ≥ 0, after one `updateChunks` tick the
chunk registry's key set is exactly the set of chunk ids whose coordinates lie
within Chebyshev distance R of P — every such id is present and no id outside
the window remains (given the registry invariant that all prior keys are
well formed ids). -/
theorem updateChunks_registry_window (cfg : Config) (st : WorldState)
    (_hs : 0 < cfg.chunkSize) (_hR : 0 ≤ cfg.loadedRadius)
    (hwf : ∀ id ∈ keysOf st, WFKey id) :
    ∀ id : ChunkId, id ∈ keysOf (updateChunks cfg st) ↔
      ∃ a b : ℤ, id = chunkIDChars a b ∧
        max |a - pcx cfg st| |b - pcz cfg st| ≤ cfg.loadedRadius := by
  intro id
  rw [updateChunks_keys_core cfg st hwf id]
  constructor
  · rintro ⟨a, b, rfl, h1, h2⟩
    exact ⟨a, b, rfl, max_le h1 h2⟩
  · rintro ⟨a, b, rfl, hm⟩
    exact ⟨a, b, rfl, le_of_max_le_left hm, le_of_max_le_right hm⟩

/-- Witness for C1 at the source configuration and initial state. -/
theorem updateChunks_registry_window_witness :
    0 < mainConfig.chunkSize ∧ 0 ≤ mainConfig.loadedRadius ∧
    (∀ id ∈ keysOf initState, WFKey id) ∧
    ∀ id : ChunkId, id ∈ keysOf (updateChunks mainConfig initState) ↔
      ∃ a b : ℤ, id = chunkIDChars a b ∧
        max |a - pcx mainConfig initState| |b - pcz mainConfig initState|
          ≤ mainConfig.loadedRadius :=
  ⟨by norm_num [mainConfig], by norm_num [mainConfig],
   by intro id hid; simp [keysOf, initState] at hid,
   updateChunks_registry_window mainConfig initState (by norm_num [mainConfig])
     (by norm_num [mainConfig]) (by intro id hid; simp [keysOf, initState] at hid)⟩

/-- C2: for every world position (x, z) and chunk size > 0, the chunk
coordinate obtained by floor division serializes to the id string "cx_cz" and
parses back (split on the separator, coerce the pieces to integers) to exactly
the same coordinate pair — negative coordinates included, since the "_" joiner
never collides with the "-" sign of a decimal integer. -/
theorem chunkKey_roundtrip (x z s : ℚ) (_hs : 0 < s) :
    parseChunkIDChars (chunkID x z s) = some (chunkCoordinateOf x z s) := by
  unfold chunkID
  rw [parseChunkIDChars_chunkIDChars]

/-- Witness for C2 at a position with a negative chunk coordinate. -/
theorem chunkKey_roundtrip_witness :
    (0 : ℚ) < 50 ∧
    parseChunkIDChars (chunkID (-125) 130 50) = some (chunkCoordinateOf (-125) 130 50) :=
  ⟨by norm_num, chunkKey_roundtrip (-125) 130 50 (by norm_num)⟩

/-- C3: the tick is idempotent — a second `updateChunks` call with the player
unmoved passes no id to `createChunk` and none to `unloadChunk` (empty load and
unload sets) and returns the state unchanged, for every starting state. -/
theorem updateChunks_idempotent (cfg : Config) (st : WorldState) :
    updateChunksT cfg (updateChunks cfg st) = (updateChunks cfg st, [], []) :=
  tick_fixpoint cfg st

/-- C4 (counterexample): `createChunk` itself mutates the chunk registry — on
the empty initial registry, generating chunk (0, 0) changes `chunks`,
contradicting the claim that the generator does not insert the chunk and that
registration is done by the lifecycle manager instead. -/
theorem createChunk_registers_cex :
    (createChunk mainConfig 0 0 (chunkIDChars 0 0) initState).chunks
      ≠ initState.chunks := by
  rw [createChunk_chunks]
  simp [initState, mapSet]

/-- C4 (amended): `createChunk`'s side effects are exactly producing the new
chunk's primitive set, registering it in the chunk registry itself
(`chunks.set` is inside `createChunk`, so the lifecycle loop relies on the
generator for registration) and adding the group to the scene, besides
advancing the random cursor; the structure registry, player state, vehicle
list, mesh store and vehicle scene entries are untouched. -/
theorem createChunk_effects (cfg : Config) (cx cz : ℤ) (id : ChunkId) (st : WorldState) :
    (createChunk cfg cx cz id st).chunks
        = mapSet st.chunks id (genGroup cfg cx cz st.rng st.rngIdx).1 ∧
    (createChunk cfg cx cz id st).scene.chunkGroups
        = st.scene.chunkGroups ++ [(id, (genGroup cfg cx cz st.rng st.rngIdx).1)] ∧
    (createChunk cfg cx cz id st).playerStructures = st.playerStructures ∧
    (createChunk cfg cx cz id st).player = st.player ∧
    (createChunk cfg cx cz id st).vehicles = st.vehicles ∧
    (createChunk cfg cx cz id st).meshes = st.meshes ∧
    (createChunk cfg cx cz id st).scene.vehicleRefs = st.scene.vehicleRefs ∧
    (createChunk cfg cx cz id st).rng = st.rng :=
  ⟨rfl, rfl, rfl, rfl, rfl, rfl, rfl, rfl⟩

/-- C5 (counterexample): with the all-zero random stream (legal `Math.random`
output), the first terrain block generated for chunk (0, 0) is placed at
x = -25, and `floor(-25 / 50) = -1 ≠ 0`: a primitive produced by `createChunk`
does not map back to the generating chunk through the coordinate mapper, so the
primitives are not confined to the chunk's floor-division footprint. -/
theorem createChunk_footprint_cex :
    (∀ j : ℕ, 0 ≤ zeroRng j ∧ zeroRng j < 1) ∧
    ((mapGet (createChunk mainConfig 0 0 (chunkIDChars 0 0) initState).chunks
        (chunkIDChars 0 0)).map
      (fun g => g.head?.map (fun m => ⌊m.position.x / mainConfig.chunkSize⌋)))
      = some (some (-1)) := by
  constructor
  · intro j
    constructor <;> norm_num [zeroRng]
  · rw [createChunk_chunks, mapGet_set_self]
    rw [Option.map_some']
    rw [show initState.rngIdx = 0 from rfl, show initState.rng = zeroRng from rfl]
    rw [genGroup_head mainConfig 0 0 zeroRng 0 49 rfl]
    rw [Option.map_some']
    norm_num [initState, zeroRng, mainConfig]

/-- C5 (amended): every primitive `createChunk` generates for chunk (cx, cz) —
this is exactly the set `genGroup` returns and `createChunk` registers, see
`createChunk_effects` — lies in the half-open square of side `chunkSize`
centered on the chunk's anchor point `(cx·chunkSize, cz·chunkSize)`:
`floor(x/chunkSize + 1/2) = cx` and `floor(z/chunkSize + 1/2) = cz` (so up to
half of a chunk's primitives sit in neighbouring floor-division footprints),
and each primitive's base is at y = 0 (vertical center = height/2). -/
theorem createChunk_prims_centered (cfg : Config) (hs : 0 < cfg.chunkSize)
    (rng : ℕ → ℚ) (hr : ∀ j : ℕ, 0 ≤ rng j ∧ rng j < 1) (cx cz : ℤ) (k : ℕ) :
    ∀ m ∈ (genGroup cfg cx cz rng k).1,
      ⌊m.position.x / cfg.chunkSize + 1/2⌋ = cx ∧
      ⌊m.position.z / cfg.chunkSize + 1/2⌋ = cz ∧
      2 * m.position.y = heightOf m.geometry :=
  genGroup_centered cfg cx cz rng hr hs k

/-- Witness for C5 (amended) at the source configuration. -/
theorem createChunk_prims_centered_witness :
    0 < mainConfig.chunkSize ∧ (∀ j : ℕ, 0 ≤ halfRng j ∧ halfRng j < 1) ∧
    ∀ m ∈ (genGroup mainConfig 3 (-2) halfRng 0).1,
      ⌊m.position.x / mainConfig.chunkSize + 1/2⌋ = 3 ∧
      ⌊m.position.z / mainConfig.chunkSize + 1/2⌋ = -2 ∧
      2 * m.position.y = heightOf m.geometry :=
  ⟨by norm_num [mainConfig],
   by intro j; constructor <;> norm_num [halfRng],
   createChunk_prims_centered mainConfig (by norm_num [mainConfig]) halfRng
     (by intro j; constructor <;> norm_num [halfRng]) 3 (-2) 0⟩

/-- C6: if generation throws for a missing in-window coordinate, the frame's
already-issued `requestAnimationFrame` still schedules the next frame (line 171
precedes the tick body), the failed chunk id is simply left absent from the
registry, every previously registered chunk entry survives untouched, and a
following failure-free stationary frame retries the coordinate and loads it. -/
theorem generation_failure_skip_retry (cfg : Config) (st : WorldState)
    (inp1 inp2 : FrameInput) (c : ℤ × ℤ)
    (hk1 : inp1.keys = noKeys) (hk2 : inp2.keys = noKeys)
    (hwf : ∀ id ∈ keysOf st, WFKey id)
    (hc : c ∈ tickWindow cfg st) (hf : inp1.fails c = true)
    (habs : chunkIDChars c.1 c.2 ∉ keysOf st)
    (hok : ∀ c2, inp2.fails c2 = false) :
    (animateStep cfg inp1 st).scheduledNext = true ∧
    chunkIDChars c.1 c.2 ∉ keysOf (animateStep cfg inp1 st).state ∧
    (∀ p ∈ st.chunks, p ∈ (animateStep cfg inp1 st).state.chunks) ∧
    (animateStep cfg inp2 (animateStep cfg inp1 st).state).scheduledNext = true ∧
    chunkIDChars c.1 c.2 ∈
      keysOf (animateStep cfg inp2 (animateStep cfg inp1 st).state).state := by
  have hst1 : updatePlayer inp1.keys inp1.delta st = st := by
    rw [hk1]
    exact updatePlayer_noKeys inp1.delta st
  have hthrow : updateChunksF cfg inp1.fails st =
      ((loadPassF cfg inp1.fails st (tickWindow cfg st)).1, true) :=
    updateChunksF_throws cfg inp1.fails st ⟨c, hc, hf, habs⟩
  have hstep1 : animateStep cfg inp1 st =
      ⟨true, (loadPassF cfg inp1.fails st (tickWindow cfg st)).1, true⟩ := by
    simp only [animateStep]
    rw [hst1, hthrow]
    rfl
  have habs1 : chunkIDChars c.1 c.2 ∉
      (loadPassF cfg inp1.fails st (tickWindow cfg st)).1.chunks.map Prod.fst := by
    intro hin
    rcases loadPassF_keys_sub cfg inp1.fails (tickWindow cfg st) st _ hin with
      hm | ⟨c2, _, heq, hfc⟩
    · exact habs hm
    · obtain ⟨e1, e2⟩ := chunkIDChars_inj heq
      have hceq : c2 = c := Prod.ext e1.symm e2.symm
      rw [hceq, hf] at hfc
      exact Bool.false_ne_true hfc.symm
  have hwf1 : ∀ id ∈ keysOf (loadPassF cfg inp1.fails st (tickWindow cfg st)).1, WFKey id := by
    intro id hid
    rcases loadPassF_keys_sub cfg inp1.fails (tickWindow cfg st) st id hid with
      hm | ⟨c2, _, heq, _⟩
    · exact hwf id hm
    · exact ⟨c2.1, c2.2, heq⟩
  have hpl : (loadPassF cfg inp1.fails st (tickWindow cfg st)).1.player = st.player :=
    loadPassF_player cfg inp1.fails (tickWindow cfg st) st
  have hst2 : updatePlayer inp2.keys inp2.delta
      (loadPassF cfg inp1.fails st (tickWindow cfg st)).1
      = (loadPassF cfg inp1.fails st (tickWindow cfg st)).1 := by
    rw [hk2]
    exact updatePlayer_noKeys inp2.delta _
  have hnf : updateChunksF cfg inp2.fails (loadPassF cfg inp1.fails st (tickWindow cfg st)).1
      = (updateChunks cfg (loadPassF cfg inp1.fails st (tickWindow cfg st)).1, false) :=
    updateChunksF_no_fail cfg inp2.fails _ hok
  have hstep2 : animateStep cfg inp2 (loadPassF cfg inp1.fails st (tickWindow cfg st)).1 =
      ⟨true, animateVehicles inp2.hover
        (updateChunks cfg (loadPassF cfg inp1.fails st (tickWindow cfg st)).1), false⟩ := by
    simp only [animateStep]
    rw [hst2, hnf]
    rfl
  have hcw : c ∈ windowList (pcx cfg st) (pcz cfg st) cfg.loadedRadius := hc
  have hb := mem_windowList.mp hcw
  have hmem : chunkIDChars c.1 c.2 ∈
      keysOf (updateChunks cfg (loadPassF cfg inp1.fails st (tickWindow cfg st)).1) := by
    rw [updateChunks_keys_core cfg _ hwf1]
    have hx : pcx cfg (loadPassF cfg inp1.fails st (tickWindow cfg st)).1 = pcx cfg st := by
      unfold pcx
      rw [hpl]
    have hz : pcz cfg (loadPassF cfg inp1.fails st (tickWindow cfg st)).1 = pcz cfg st := by
      unfold pcz
      rw [hpl]
    exact ⟨c.1, c.2, rfl, by rw [hx]; exact hb.1, by rw [hz]; exact hb.2⟩
  rw [hstep1]
  dsimp only
  refine ⟨rfl, habs1, ?_, ?_, ?_⟩
  · intro p hp
    exact loadPassF_entries cfg inp1.fails (tickWindow cfg st) st p hp
  · rw [hstep2]
  · rw [hstep2]
    exact hmem

/-- Witness for C6: a stationary player at the initial state, generation
failing on chunk (0, 0) in the first frame and succeeding in the second. -/
theorem generation_failure_skip_retry_witness :
    (animateStep mainConfig frameInput1 initState).scheduledNext = true ∧
    chunkIDChars 0 0 ∉ keysOf (animateStep mainConfig frameInput1 initState).state ∧
    (∀ p ∈ initState.chunks, p ∈ (animateStep mainConfig frameInput1 initState).state.chunks) ∧
    (animateStep mainConfig frameInput2
      (animateStep mainConfig frameInput1 initState).state).scheduledNext = true ∧
    chunkIDChars 0 0 ∈ keysOf (animateStep mainConfig frameInput2
      (animateStep mainConfig frameInput1 initState).state).state :=
  generation_failure_skip_retry mainConfig initState frameInput1 frameInput2 (0, 0)
    rfl rfl (by intro id hid; simp [keysOf, initState] at hid)
    (by
      show ((0, 0) : ℤ × ℤ) ∈ windowList (pcx mainConfig initState)
        (pcz mainConfig initState) mainConfig.loadedRadius
      have hx : pcx mainConfig initState = 0 := by
        unfold pcx
        norm_num [initState, mainConfig]
      have hz : pcz mainConfig initState = 0 := by
        unfold pcz
        norm_num [initState, mainConfig]
      rw [hx, hz, mem_windowList]
      norm_num [mainConfig])
    rfl (by simp [keysOf, initState]) (fun c2 => rfl)

/-- C7: `saveStructure` stores an independent snapshot for every recorded
structure: recording any source mesh stores exactly the geometry, material,
position and rotation values the mesh has at record time, and the registry —
after a record through `saveStructure` itself or through any `buildVehicle`
type — is unchanged by every later sequence of per-frame hover mutations of
the originating visual objects.  For the two build types, the stored snapshot
is spelled out: the boat's cylinder at `(player.x+2, 0.25, player.z)` rotated
π/2 about z, and the plane's box at `(player.x+2, player.y+1, player.z)`. -/
theorem saveStructure_snapshot (st : WorldState) (sid : ℕ) (m : MeshData)
    (t : String) (hovers : List ℚ) :
    mapGet (saveStructure sid m st).playerStructures sid
      = some ⟨m.geometry, m.material, m.position, m.rotation⟩ ∧
    (hovers.foldl (fun s h => animateVehicles h s)
        (saveStructure sid m st)).playerStructures
      = (saveStructure sid m st).playerStructures ∧
    (hovers.foldl (fun s h => animateVehicles h s)
        (buildVehicle t sid st)).playerStructures
      = (buildVehicle t sid st).playerStructures ∧
    mapGet (buildVehicle "boat" sid st).playerStructures sid
      = some ⟨.cylinder 1 1 (1/2) 8, ⟨0x0000ff, false⟩,
          ⟨st.player.x + 2, 1/4, st.player.z⟩, ⟨0, 0, 1/2⟩⟩ ∧
    mapGet (buildVehicle "plane" sid st).playerStructures sid
      = some ⟨.box 2 (2/5) 4, ⟨0xffff00, false⟩,
          ⟨st.player.x + 2, st.player.y + 1, st.player.z⟩, ⟨0, 0, 0⟩⟩ := by
  refine ⟨?_, ?_, ?_, ?_, ?_⟩
  · exact mapGet_set_self _ _ _
  · exact hoverFold_structures hovers (saveStructure sid m st)
  · exact hoverFold_structures hovers (buildVehicle t sid st)
  · exact mapGet_set_self _ _ _
  · exact mapGet_set_self _ _ _

/-- C8: the chunk lifecycle never removes structures — after any sequence of
`updateChunks` ticks and direct `unloadChunk` calls, the structure registry is
exactly what it was (every recorded structure still present and unmodified),
and the vehicle list and mesh store are untouched as well. -/
theorem lifecycle_preserves_structures (cfg : Config) (st : WorldState)
    (ops : List LifecycleOp) :
    (applyOps cfg st ops).playerStructures = st.playerStructures ∧
    (applyOps cfg st ops).vehicles = st.vehicles ∧
    (applyOps cfg st ops).meshes = st.meshes := by
  induction ops generalizing st with
  | nil => exact ⟨rfl, rfl, rfl⟩
  | cons op ops ih =>
    have hstep : applyOps cfg st (op :: ops) = applyOps cfg (applyOp cfg st op) ops := rfl
    rw [hstep]
    obtain ⟨h1, h2, h3⟩ := ih (applyOp cfg st op)
    rw [h1, h2, h3]
    cases op with
    | tick =>
      exact ⟨updateChunks_structures cfg st, (updateChunks_vframe cfg st).1,
        (updateChunks_vframe cfg st).2.1⟩
    | unload id =>
      obtain ⟨g1, g2, g3, _, _, _⟩ := unloadChunk_frame id st
      exact ⟨g1, g2, g3⟩

/-- C9: an unrecognized build type is a silent no-op at the public interface —
`buildVehicle` creates no mesh and returns the state unchanged (nothing added
to the scene, the vehicles list, the mesh store or the structure registry). -/
theorem buildVehicle_unknown_noop (t : String) (sid : ℕ) (st : WorldState)
    (hp : t ≠ "plane") (hb : t ≠ "boat") :
    buildVehicle t sid st = st := by
  unfold buildVehicle buildMesh?
  rw [if_neg hp, if_neg hb]

/-- Witness for C9 at the type "car". -/
theorem buildVehicle_unknown_noop_witness :
    ("car" : String) ≠ "plane" ∧ ("car" : String) ≠ "boat" ∧
    buildVehicle "car" 0 initState = initState :=
  ⟨by decide, by decide,
   buildVehicle_unknown_noop "car" 0 initState (by decide) (by decide)⟩

/-- C10: movement only translates the player's visual mesh — the spawn fields
`player.x`, `player.y`, `player.z` survive every movement sequence unchanged,
so the structures recorded by a `buildVehicle` after arbitrary movement are
exactly the structures recorded by the same build before it (the spawn position
is always relative to the initial player position). -/
theorem movement_never_moves_spawn (st : WorldState) (moves : List (KeyState × ℚ))
    (t : String) (sid : ℕ) :
    (moves.foldl (fun s kd => updatePlayer kd.1 kd.2 s) st).player.x = st.player.x ∧
    (moves.foldl (fun s kd => updatePlayer kd.1 kd.2 s) st).player.y = st.player.y ∧
    (moves.foldl (fun s kd => updatePlayer kd.1 kd.2 s) st).player.z = st.player.z ∧
    (buildVehicle t sid (moves.foldl (fun s kd => updatePlayer kd.1 kd.2 s) st)).playerStructures
      = (buildVehicle t sid st).playerStructures := by
  obtain ⟨h1, h2, h3, h4⟩ := moveFold_fields moves st
  exact ⟨h1, h2, h3, buildVehicle_structures_fields t sid st _ h1 h2 h3 h4⟩
